import Mathlib

/-!
Verification of the congressional-bill-analyzer core against its
natural-language specification.

The Python sources are shallowly embedded: strings are Lean `String`s
(operated on through their `List Char` data where character-level scanning
is needed), Python lists are Lean `List`s, Python dicts appearing as
metadata are association lists in insertion order, numbers parsed from
model responses are modelled exactly as rationals wrapped in a `PyFloat`
type that records IEEE-double overflow to infinity, and every network
call (OpenAI chat completion, Chroma embedding query) is an explicit
oracle function argument.

All recursive functions are written with structural recursion (an explicit
fuel argument, instantiated with the input length, replaces the
shrinking-suffix loops of the source) so that every definition evaluates
inside the kernel on concrete inputs.
-/

set_option maxRecDepth 100000

namespace BillAnalyzer

/-! ## Python primitives shared by several components -/

/-- Model of Python's default whitespace test (`str.isspace`, and the regex
class \s) restricted to its ASCII members. -/
def pyWs (c : Char) : Bool :=
  c = ' ' || c = '\t' || c = '\n' || c = '\r' || c = '\x0b' || c = '\x0c'

/-- Accumulator pass behind `pySplitWs`: `acc` holds the current
(reversed) word. -/
def pySplitWsAux (acc : List Char) : List Char → List (List Char)
  | [] => if acc.isEmpty then [] else [acc.reverse]
  | c :: rest =>
    if pyWs c then
      if acc.isEmpty then pySplitWsAux [] rest
      else acc.reverse :: pySplitWsAux [] rest
    else pySplitWsAux (c :: acc) rest

/-- Maximal runs of non-whitespace characters, mirroring Python's
`str.split()` with no arguments (splits on whitespace runs and never
produces empty words). -/
def pySplitWs (cs : List Char) : List (List Char) :=
  pySplitWsAux [] cs

/-- Word sequence of a text, as computed by `text.split()` in
`TextProcessor.chunk_text`. -/
def pyWords (s : String) : List String :=
  (pySplitWs s.data).map List.asString

/-! ## Text Chunker (src/text_processor.py, chunk_text) -/

/-- Fuel-indexed form of the loop `for i in range(0, len(words),
chunk_size)` in `TextProcessor.chunk_text`: each step takes the next
`chunk_size` words (`words[i:min(i + chunk_size, len(words))]`) and
continues on the rest. With `fuel ≥ words.length` and positive
`chunk_size` the fuel never runs out, so this is exactly the Python loop.
(Python's `range` with step 0 raises; every claim assumes a positive
chunk size.) -/
def chunkWordsFuel (chunk_size : Nat) : Nat → List String → List (List String)
  | _, [] => []
  | 0, ws => [ws]
  | fuel + 1, w :: ws =>
    ((w :: ws).take chunk_size) :: chunkWordsFuel chunk_size fuel ((w :: ws).drop chunk_size)

/-- Word-level content of `TextProcessor.chunk_text`: consecutive groups
of `chunk_size` words. -/
def chunkWords (chunk_size : Nat) (words : List String) : List (List String) :=
  chunkWordsFuel chunk_size words.length words

/-- Embedding of `TextProcessor.chunk_text`: split the text on whitespace,
group into `chunk_size`-word runs, rejoin each run with single spaces
(`' '.join(words[i:end])`). -/
def chunk_text (text : String) (chunk_size : Nat) : List String :=
  (chunkWords chunk_size (pyWords text)).map (fun g => String.intercalate " " g)

theorem chunkWordsFuel_flatten (chunk_size : Nat) (h : 0 < chunk_size) :
    ∀ (fuel : Nat) (words : List String), words.length ≤ fuel →
      (chunkWordsFuel chunk_size fuel words).flatten = words := by
  intro fuel
  induction fuel with
  | zero =>
    intro words hlen
    have : words = [] := List.length_eq_zero.mp (Nat.le_zero.mp hlen)
    subst this
    rfl
  | succ n ih =>
    intro words hlen
    match words with
    | [] => rfl
    | w :: ws =>
      have hrec := ih ((w :: ws).drop chunk_size) (by
        simp only [List.length_drop, List.length_cons]
        simp only [List.length_cons] at hlen
        omega)
      simp only [chunkWordsFuel, List.flatten_cons, hrec, List.take_append_drop]

theorem chunkWordsFuel_nil_iff (chunk_size : Nat) (h : 0 < chunk_size) :
    ∀ (fuel : Nat) (words : List String), words.length ≤ fuel →
      (chunkWordsFuel chunk_size fuel words = [] ↔ words = []) := by
  intro fuel words hlen
  match fuel, words with
  | _, [] => simp [chunkWordsFuel]
  | 0, w :: ws => simp at hlen
  | n + 1, w :: ws => simp [chunkWordsFuel]

theorem chunkWordsFuel_dropLast_length (chunk_size : Nat) (h : 0 < chunk_size) :
    ∀ (fuel : Nat) (words : List String), words.length ≤ fuel →
      ∀ g ∈ (chunkWordsFuel chunk_size fuel words).dropLast, g.length = chunk_size := by
  intro fuel
  induction fuel with
  | zero =>
    intro words hlen
    have : words = [] := List.length_eq_zero.mp (Nat.le_zero.mp hlen)
    subst this
    simp [chunkWordsFuel]
  | succ n ih =>
    intro words hlen g hg
    match words with
    | [] => simp [chunkWordsFuel] at hg
    | w :: ws =>
      simp only [chunkWordsFuel] at hg
      have hdlen : ((w :: ws).drop chunk_size).length ≤ n := by
        simp only [List.length_drop, List.length_cons]
        simp only [List.length_cons] at hlen
        omega
      rcases hrest : chunkWordsFuel chunk_size n ((w :: ws).drop chunk_size) with _ | ⟨r, rs⟩
      · rw [hrest] at hg
        simp at hg
      · rw [hrest] at hg
        have hdrop : (w :: ws).drop chunk_size ≠ [] := by
          intro hd
          rw [hd] at hrest
          simp [chunkWordsFuel] at hrest
        have hlt : chunk_size < (w :: ws).length := by
          by_contra hle
          push_neg at hle
          exact hdrop (List.drop_eq_nil_of_le hle)
        simp only [List.dropLast_cons₂, List.mem_cons] at hg
        rcases hg with hg | hg
        · subst hg
          simp only [List.length_take]
          omega
        · have := ih ((w :: ws).drop chunk_size) hdlen g
          rw [hrest] at this
          exact this (by simpa using hg)

theorem intercalate_space_singleton (w : String) : String.intercalate " " [w] = w := by
  simp [String.intercalate, String.intercalate.go]

/-- C1: for whitespace-normalized text (represented through its word
sequence `pyWords text`) and positive chunk size, `chunk_text` is a strict
partition of the word sequence: the groups flatten back to the exact word
sequence, every group but possibly the last has exactly `chunk_size` words
(no overlap, no sliding window), the output chunks are precisely the
single-space joins of these groups, the empty text yields an empty chunk
list, and a single-word text yields a one-element chunk list. -/
theorem chunk_text_partitions (text : String) (chunk_size : Nat) (h : 0 < chunk_size) :
    (chunkWords chunk_size (pyWords text)).flatten = pyWords text ∧
    (∀ g ∈ (chunkWords chunk_size (pyWords text)).dropLast, g.length = chunk_size) ∧
    chunk_text text chunk_size
      = (chunkWords chunk_size (pyWords text)).map (fun g => String.intercalate " " g) ∧
    (pyWords text = [] → chunk_text text chunk_size = []) ∧
    (∀ w, pyWords text = [w] → chunk_text text chunk_size = [w]) := by
  refine ⟨chunkWordsFuel_flatten chunk_size h _ _ le_rfl,
    chunkWordsFuel_dropLast_length chunk_size h _ _ le_rfl, rfl, ?_, ?_⟩
  · intro hnil
    simp [chunk_text, chunkWords, hnil, chunkWordsFuel]
  · intro w hw
    have hone : chunkWords chunk_size [w] = [[w]] := by
      have htake : ([w] : List String).take chunk_size = [w] := by
        apply List.take_of_length_le
        simpa using h
      have hdrop : ([w] : List String).drop chunk_size = [] := by
        apply List.drop_eq_nil_of_le
        simpa using h
      simp [chunkWords, chunkWordsFuel, htake, hdrop]
    simp [chunk_text, hw, hone, intercalate_space_singleton]

/-- Witness for C1 at text "alpha beta gamma" with chunk size 2. -/
theorem chunk_text_partitions_witness :
    0 < 2 ∧ chunk_text "alpha beta gamma" 2 = ["alpha beta", "gamma"] := by
  have h := chunk_text_partitions "alpha beta gamma" 2 (by decide)
  refine ⟨by decide, ?_⟩
  rw [h.2.2.1]
  rfl


/-! ## Python values and metadata sanitization (src/qa_system.py) -/

/-- Universe of Python values that flow through the bill metadata dicts of
this program: primitive scalars (the `isinstance(value, (str, int, float,
bool))` / `None` tests of `store_bill_chunks`), lists, and string-keyed
dicts. -/
inductive PyVal where
  | PStr (s : String)
  | PInt (n : Int)
  | PBool (b : Bool)
  | PNone
  | PList (l : List PyVal)
  | PDict (d : List (String × PyVal))

instance : Inhabited PyVal := ⟨PyVal.PNone⟩

mutual

/-- Model of Python's `repr` on the embedded values (used by `str` on
lists and dicts). -/
def pyRepr : PyVal → String
  | .PStr s => "'" ++ s ++ "'"
  | .PInt n => toString n
  | .PBool b => if b then "True" else "False"
  | .PNone => "None"
  | .PList l => "[" ++ String.intercalate ", " (pyReprList l) ++ "]"
  | .PDict d => "\x7b" ++ String.intercalate ", " (pyReprDict d) ++ "\x7d"

/-- Helper of pyRepr on the elements of a list value. -/
def pyReprList : List PyVal → List String
  | [] => []
  | v :: vs => pyRepr v :: pyReprList vs

/-- Helper of pyRepr on the entries of a dict value. -/
def pyReprDict : List (String × PyVal) → List String
  | [] => []
  | kv :: kvs => ("'" ++ kv.1 ++ "': " ++ pyRepr kv.2) :: pyReprDict kvs

end

/-- Model of Python's `str` on the embedded values (`str(item)` inside the
`", ".join(...)` of `store_bill_chunks`, and `str(value)` for dicts). -/
def pyStr : PyVal → String
  | .PStr s => s
  | v => pyRepr v

/-- Helper mirroring `", ".join(str(item) for item in value)`. -/
def joinCommaStr (l : List PyVal) : String :=
  String.intercalate ", " (l.map pyStr)

/-- Python dict access: first (and in a dict, only) binding of a key in an
insertion-ordered association list. -/
def lookupKey (k : String) : List (String × PyVal) → Option PyVal
  | [] => none
  | kv :: rest => if kv.1 == k then some kv.2 else lookupKey k rest

/-- Per-value sanitization of `QASystem.store_bill_chunks`: primitive
scalars and `None` are kept, a non-empty list becomes the comma join of
the `str` of its items, a non-empty dict becomes its `str`, an empty list
becomes the empty string, and an empty dict becomes the string "\x7b\x7d"
(the `str` text of an empty dict). The final Python catch-all branch
(`str(value)` for values of other types) is unreachable over this value
universe. -/
def sanitizeValue : PyVal → PyVal
  | .PStr s => .PStr s
  | .PInt n => .PInt n
  | .PBool b => .PBool b
  | .PNone => .PNone
  | .PList [] => .PStr ""
  | .PList (v :: vs) => .PStr (joinCommaStr (v :: vs))
  | .PDict [] => .PStr "\x7b\x7d"
  | .PDict (kv :: kvs) => .PStr (pyRepr (.PDict (kv :: kvs)))

/-- The `sanitized_metadata` loop of `store_bill_chunks`: every key of the
input dict is kept, with its value sanitized. -/
def sanitizeMetadata (metadata : List (String × PyVal)) : List (String × PyVal) :=
  metadata.map (fun kv => (kv.1, sanitizeValue kv.2))

/-- Python dict assignment `d[k] = v` on an insertion-ordered association
list: replaces the value in place if the key exists, appends otherwise. -/
def dictSet (m : List (String × PyVal)) (k : String) (v : PyVal) : List (String × PyVal) :=
  if m.any (fun kv => kv.1 == k) then m.map (fun kv => if kv.1 == k then (k, v) else kv)
  else m ++ [(k, v)]

/-! ## Embedding Index (src/qa_system.py) -/

/-- One stored record of the ChromaDB collection: id, document text and
metadata dict. -/
structure Entry where
  id : String
  doc : String
  meta : List (String × PyVal)

/-- Modelled from the chromadb client documentation (the vector store is
an external collaborator, not part of src/): `Collection.add` inserts the
entries whose ids are not already present and ignores entries with an
already-existing id (chromadb 0.4 logs a warning for them; earlier
versions raise instead). In no version does `add` overwrite an existing
id — that is `upsert`. -/
def collAdd (coll : List Entry) (new : List Entry) : List Entry :=
  new.foldl (fun acc e => if acc.any (fun x => x.id == e.id) then acc else acc ++ [e]) coll

/-- Embedding of `QASystem.store_bill_chunks`: chunk ids
`f"{bill_id}_chunk_{i}"`, sanitized metadata with `bill_id` added, and one
`collection.add` of every chunk carrying the same metadata dict. -/
def store_bill_chunks (coll : List Entry) (bill_id : String) (chunks : List String)
    (metadata : List (String × PyVal)) : List Entry :=
  let chunk_ids := (List.range chunks.length).map (fun i => bill_id ++ "_chunk_" ++ toString i)
  let sanitized_metadata := dictSet (sanitizeMetadata metadata) "bill_id" (.PStr bill_id)
  collAdd coll ((chunk_ids.zip chunks).map (fun p => ⟨p.1, p.2, sanitized_metadata⟩))

/-- Python `meta.get(key, default)`. -/
def metaGet (m : List (String × PyVal)) (k : String) (dflt : PyVal) : PyVal :=
  (lookupKey k m).getD dflt

/-- One retrieved context item of `QASystem.get_relevant_context`: chunk
text, the value rendered for the 'section' key, raw distance score. -/
structure CtxItem where
  text : String
  sectionLabel : PyVal
  relevance_score : ℚ

instance : Inhabited CtxItem := ⟨⟨"", PyVal.PNone, 0⟩⟩

/-- Embedding of `QASystem.get_relevant_context`: the collection query
restricted by the filter on the "bill_id" metadata key, ranked by the
embedding model (an external oracle `rank`, which returns distance-scored
entries drawn from the filtered collection), truncated to `k` results;
each item carries the document, `meta.get('section', 'Unknown')` and the
distance. -/
def get_relevant_context (rank : String → List Entry → List (Entry × ℚ))
    (coll : List Entry) (question bill_id : String) (k : Nat) : List CtxItem :=
  let filtered := coll.filter (fun e =>
    match lookupKey "bill_id" e.meta with
    | some (.PStr s) => s == bill_id
    | _ => false)
  ((rank question filtered).take k).map
    (fun p => ⟨p.1.doc, metaGet p.1.meta "section" (.PStr "Unknown"), p.2⟩)

/-! ## Lemmas about the index model -/

theorem lookupKey_sanitizeMetadata (metadata : List (String × PyVal)) (k : String) :
    lookupKey k (sanitizeMetadata metadata) = (lookupKey k metadata).map sanitizeValue := by
  induction metadata with
  | nil => rfl
  | cons kv rest ih =>
    simp only [sanitizeMetadata, List.map_cons, lookupKey]
    by_cases hk : kv.1 == k
    · simp [hk]
    · simp only [hk, Bool.false_eq_true, if_false]
      exact ih

theorem lookupKey_map_replace_ne (m : List (String × PyVal)) (k0 k : String) (v : PyVal)
    (h : k ≠ k0) :
    lookupKey k (m.map (fun kv => if kv.1 == k0 then (k0, v) else kv)) = lookupKey k m := by
  induction m with
  | nil => rfl
  | cons kv rest ih =>
    simp only [List.map_cons]
    by_cases hkv : kv.1 == k0
    · have hkv' : kv.1 = k0 := by simpa using hkv
      simp only [hkv, if_true, lookupKey]
      have h1 : (k0 == k) = false := by
        simp [Ne.symm h]
      have h2 : (kv.1 == k) = false := by
        simp [hkv', Ne.symm h]
      simp only [h1, h2, Bool.false_eq_true, if_false]
      exact ih
    · simp only [hkv, Bool.false_eq_true, if_false, lookupKey]
      by_cases hk : kv.1 == k
      · simp [hk]
      · simp only [hk, Bool.false_eq_true, if_false]
        exact ih

theorem lookupKey_append_single_ne (m : List (String × PyVal)) (k0 k : String) (v : PyVal)
    (h : k ≠ k0) : lookupKey k (m ++ [(k0, v)]) = lookupKey k m := by
  induction m with
  | nil =>
    simp only [List.nil_append, lookupKey]
    have h1 : (k0 == k) = false := by
      simp [Ne.symm h]
    simp [h1]
  | cons kv rest ih =>
    simp only [List.cons_append, lookupKey]
    by_cases hk : kv.1 == k
    · simp [hk]
    · simp only [hk, Bool.false_eq_true, if_false]
      exact ih

theorem lookupKey_dictSet_ne (m : List (String × PyVal)) (k0 k : String) (v : PyVal)
    (h : k ≠ k0) : lookupKey k (dictSet m k0 v) = lookupKey k m := by
  unfold dictSet
  split
  · exact lookupKey_map_replace_ne m k0 k v h
  · exact lookupKey_append_single_ne m k0 k v h

theorem mem_collAdd (coll new : List Entry) (e : Entry) (h : e ∈ collAdd coll new) :
    e ∈ coll ∨ e ∈ new := by
  induction new generalizing coll with
  | nil => exact Or.inl h
  | cons n ns ih =>
    simp only [collAdd, List.foldl_cons] at h
    by_cases hdup : coll.any (fun x => x.id == n.id)
    · rw [if_pos hdup] at h
      rcases ih coll h with h1 | h1
      · exact Or.inl h1
      · exact Or.inr (List.mem_cons_of_mem _ h1)
    · rw [if_neg hdup] at h
      rcases ih (coll ++ [n]) h with h1 | h1
      · rcases List.mem_append.mp h1 with h2 | h2
        · exact Or.inl h2
        · exact Or.inr (by simp [List.mem_singleton.mp h2])
      · exact Or.inr (List.mem_cons_of_mem _ h1)

theorem mem_store_meta (coll : List Entry) (bill_id : String) (chunks : List String)
    (metadata : List (String × PyVal)) (e : Entry)
    (h : e ∈ store_bill_chunks coll bill_id chunks metadata) :
    e ∈ coll ∨ e.meta = dictSet (sanitizeMetadata metadata) "bill_id" (.PStr bill_id) := by
  rcases mem_collAdd _ _ _ h with h1 | h1
  · exact Or.inl h1
  · right
    rcases List.mem_map.mp h1 with ⟨p, _, hpe⟩
    rw [← hpe]

/-! ## Claim C2: sanitization of empty collections -/

/-- C2 counterexample: metadata with an empty dict under key "a" (and an
empty list under the reserved key "bill_id") stored through
`store_bill_chunks`. The empty dict is persisted as the string "\x7b\x7d",
not as the empty-string sentinel, and the empty list stored under
"bill_id" is overwritten by the bill id; so not every empty-collection
value is persisted as the empty string. -/
theorem store_empty_dict_not_empty_string :
    (store_bill_chunks [] "billX" ["c0"]
        [("a", PyVal.PDict []), ("bill_id", PyVal.PList [])]).map
      (fun e => (lookupKey "a" e.meta, lookupKey "bill_id" e.meta))
      = [(some (PyVal.PStr "\x7b\x7d"), some (PyVal.PStr "billX"))] ∧
    PyVal.PStr "\x7b\x7d" ≠ PyVal.PStr "" := by
  refine ⟨rfl, ?_⟩
  intro h
  injection h with h
  exact absurd h (by decide)

/-- C2 (amended): for every metadata dict stored into a fresh collection,
a value that is an empty list is sanitized to the empty-string sentinel
and a value that is an empty dict is sanitized to the string "\x7b\x7d";
in both cases the key is persisted (not omitted) on every stored chunk,
provided the key is not the reserved key "bill_id" (which
`store_bill_chunks` overwrites with the bill id). -/
theorem store_sanitizes_empty_collections (bill_id : String) (chunks : List String)
    (metadata : List (String × PyVal)) (k : String) (hk : k ≠ "bill_id") :
    ∀ e ∈ store_bill_chunks [] bill_id chunks metadata,
      (lookupKey k metadata = some (PyVal.PList []) →
        lookupKey k e.meta = some (PyVal.PStr "")) ∧
      (lookupKey k metadata = some (PyVal.PDict []) →
        lookupKey k e.meta = some (PyVal.PStr "\x7b\x7d")) := by
  intro e he
  rcases mem_store_meta _ _ _ _ _ he with h1 | h1
  · simp at h1
  · constructor
    · intro hkv
      rw [h1, lookupKey_dictSet_ne _ _ _ _ hk, lookupKey_sanitizeMetadata, hkv]
      rfl
    · intro hkv
      rw [h1, lookupKey_dictSet_ne _ _ _ _ hk, lookupKey_sanitizeMetadata, hkv]
      rfl

/-- Witness for C2 (amended) at a concrete store of one chunk whose
metadata has an empty list under "subjects" and an empty dict under "x". -/
theorem store_sanitizes_empty_collections_witness :
    ("subjects" ≠ "bill_id") ∧
    (store_bill_chunks [] "118-hr-1" ["chunk text"]
        [("subjects", PyVal.PList []), ("x", PyVal.PDict [])]).map
      (fun e => lookupKey "subjects" e.meta) = [some (PyVal.PStr "")] := by
  have h := store_sanitizes_empty_collections "118-hr-1" ["chunk text"]
    [("subjects", PyVal.PList []), ("x", PyVal.PDict [])] "subjects" (by decide)
  refine ⟨by decide, ?_⟩
  have hmem : (⟨"118-hr-1_chunk_0", "chunk text",
      [("subjects", PyVal.PStr ""), ("x", PyVal.PStr "\x7b\x7d"),
        ("bill_id", PyVal.PStr "118-hr-1")]⟩ : Entry)
      ∈ store_bill_chunks [] "118-hr-1" ["chunk text"]
        [("subjects", PyVal.PList []), ("x", PyVal.PDict [])] := by
    exact List.mem_singleton.mpr rfl
  have hres := (h _ hmem).1 rfl
  rfl

/-! ## Claim C3: storing the same bill twice -/

/-- C3: evaluation of the code at the failing input. Storing chunks for
bill id "118-hr-1" and then storing new chunks for the same bill id leaves
the collection with the FIRST call's document under "118-hr-1_chunk_0":
`collection.add` ignores already-present ids instead of overwriting, so
re-analysis does not replace previously stored entries. -/
theorem store_twice_keeps_old_chunks :
    store_bill_chunks (store_bill_chunks [] "118-hr-1" ["old chunk"] []) "118-hr-1"
        ["new chunk"] []
      = [⟨"118-hr-1_chunk_0", "old chunk", [("bill_id", PyVal.PStr "118-hr-1")]⟩] := by
  rfl

/-! ## Claim C10: the retrieved section label -/

/-- Key set of the `BillMetadata` dataclass of src/congress_api.py, the
metadata dict every caller passes to `store_bill_chunks`. -/
def billMetadataKeys : List String :=
  ["congress", "bill_type", "number", "title", "sponsor", "introduced_date",
   "committees", "subjects", "url"]

/-- Collections reachable through the store operation: built from the
empty collection by `store_bill_chunks` calls whose caller metadata has no
'section' key (as is the case for every caller in this repository, which
passes the `BillMetadata` fields). -/
inductive StoreBuilt : List Entry → Prop where
  | nil : StoreBuilt []
  | store (coll : List Entry) (bill_id : String) (chunks : List String)
      (metadata : List (String × PyVal)) :
      StoreBuilt coll → lookupKey "section" metadata = none →
      StoreBuilt (store_bill_chunks coll bill_id chunks metadata)

theorem storeBuilt_no_section (coll : List Entry) (h : StoreBuilt coll) :
    ∀ e ∈ coll, lookupKey "section" e.meta = none := by
  induction h with
  | nil =>
    intro e he
    simp at he
  | store coll bill_id chunks metadata hb hsec ih =>
    intro e he
    rcases mem_store_meta _ _ _ _ _ he with h1 | h1
    · exact ih e h1
    · rw [h1, lookupKey_dictSet_ne _ _ _ _ (by decide), lookupKey_sanitizeMetadata, hsec]
      rfl

/-- C10: metadata dicts drawn from the `BillMetadata` fields carry no
'section' key, `store_bill_chunks` adds only the caller's keys plus
"bill_id" (so it never writes a 'section' key), and therefore every item
returned by `get_relevant_context` on a collection built by such stores
has its section field equal to the literal string "Unknown" — the
"if known" fallback of the retrieved-context contract always fires. -/
theorem retrieved_section_always_unknown :
    (∀ metadata : List (String × PyVal),
      (∀ kv ∈ metadata, kv.1 ∈ billMetadataKeys) → lookupKey "section" metadata = none) ∧
    (∀ (rank : String → List Entry → List (Entry × ℚ)),
      (∀ q l e d, (e, d) ∈ rank q l → e ∈ l) →
      ∀ coll, StoreBuilt coll → ∀ question bill_id k,
        ∀ item ∈ get_relevant_context rank coll question bill_id k,
          item.sectionLabel = PyVal.PStr "Unknown") := by
  constructor
  · intro metadata hmem
    induction metadata with
    | nil => rfl
    | cons kv rest ih =>
      have hkeys : ∀ s ∈ billMetadataKeys, s ≠ "section" := by decide
      have hne : kv.1 ≠ "section" := hkeys kv.1 (hmem kv (List.mem_cons_self kv rest))
      simp only [lookupKey]
      have hb : (kv.1 == "section") = false := by simp [hne]
      simp only [hb, Bool.false_eq_true, if_false]
      exact ih (fun kv2 h2 => hmem kv2 (List.mem_cons_of_mem kv h2))
  · intro rank hrank coll hb question bill_id k item hitem
    simp only [get_relevant_context] at hitem
    rcases List.mem_map.mp hitem with ⟨p, hp, hpe⟩
    have hpr : p ∈ rank question (coll.filter (fun e =>
        match lookupKey "bill_id" e.meta with
        | some (.PStr s) => s == bill_id
        | _ => false)) := List.mem_of_mem_take hp
    have hmem : p.1 ∈ coll := List.mem_of_mem_filter (hrank _ _ _ _ hpr)
    have hsec := storeBuilt_no_section coll hb p.1 hmem
    rw [← hpe]
    simp [metaGet, hsec]

/-- Trivial full-list ranking oracle used to witness C10: every filtered
entry is returned with distance 0. -/
def rankAll (q : String) (l : List Entry) : List (Entry × ℚ) :=
  l.map (fun e => (e, 0))

/-- Witness for C10 at a store of one chunk with title-only metadata and a
query through the trivial ranking oracle. -/
theorem retrieved_section_always_unknown_witness :
    ((get_relevant_context rankAll
        (store_bill_chunks [] "118-hr-1" ["chunk"] [("title", PyVal.PStr "T")])
        "what is it about" "118-hr-1" 5).head!).sectionLabel = PyVal.PStr "Unknown" := by
  have hsound : ∀ q l e d, (e, d) ∈ rankAll q l → e ∈ l := by
    intro q l e d h
    rcases List.mem_map.mp h with ⟨x, hx, heq⟩
    cases heq
    exact hx
  have hbuilt : StoreBuilt (store_bill_chunks [] "118-hr-1" ["chunk"]
      [("title", PyVal.PStr "T")]) :=
    StoreBuilt.store [] "118-hr-1" ["chunk"] [("title", PyVal.PStr "T")] StoreBuilt.nil rfl
  have hmain := retrieved_section_always_unknown.2 rankAll hsound _ hbuilt
    "what is it about" "118-hr-1" 5
  apply hmain
  have hl : get_relevant_context rankAll
      (store_bill_chunks [] "118-hr-1" ["chunk"] [("title", PyVal.PStr "T")])
      "what is it about" "118-hr-1" 5
      = [⟨"chunk", PyVal.PStr "Unknown", 0⟩] := rfl
  rw [hl]
  exact List.mem_singleton.mpr rfl

/-! ## Response scanning primitives (src/ai_analyzer.py, score_political_ideology)

The parsing layer of `score_political_ideology` uses a handful of fixed
regular expressions. Each is embedded as a dedicated scanner with Python
`re.search` semantics (leftmost match, greedy whitespace, lazy dot-plus
with its terminator alternation, `$` matching at the end of the string or
before a final newline). -/

/-- ASCII lowercasing, the effect of `re.IGNORECASE` on the labels used
here (which are ASCII). -/
def asciiLower (c : Char) : Char :=
  if 'A' ≤ c ∧ c ≤ 'Z' then Char.ofNat (c.toNat + 32) else c

/-- Case-insensitive literal match at the head of the input; returns the
rest of the input on success. -/
def ciMatch : List Char → List Char → Option (List Char)
  | [], rest => some rest
  | _ :: _, [] => none
  | p :: ps, c :: cs => if asciiLower p == asciiLower c then ciMatch ps cs else none

/-- Case-sensitive literal match at the head of the input; returns the
rest of the input on success. -/
def litMatch : List Char → List Char → Option (List Char)
  | [], rest => some rest
  | _ :: _, [] => none
  | p :: ps, c :: cs => if p == c then litMatch ps cs else none

/-- ASCII digit test (regex class \d over this character model). -/
def pyDigit (c : Char) : Bool := '0' ≤ c && c ≤ '9'

/-- Decimal literal captured by `([+-]?\d+(?:\.\d+)?)` (the confidence
patterns use the unsigned form `(\d+(?:\.\d+)?)`): sign, integer-part
digits, fractional digits (empty when no fractional part matched). -/
structure NumLit where
  neg : Bool
  ip : List Char
  fp : List Char
deriving DecidableEq

/-- Digit-and-dot part of the number match, after the optional sign:
greedy `\d+` then the optional greedy `(?:\.\d+)?`. -/
def numCore (neg : Bool) (rest : List Char) : Option NumLit :=
  let ip := rest.takeWhile pyDigit
  if ip.isEmpty then none
  else
    match rest.drop ip.length with
    | '.' :: r2 =>
      let fp := r2.takeWhile pyDigit
      if fp.isEmpty then some ⟨neg, ip, []⟩ else some ⟨neg, ip, fp⟩
    | _ => some ⟨neg, ip, []⟩

/-- Number match at the head of the input: `[+-]?\d+(?:\.\d+)?` when
`signed`, else `\d+(?:\.\d+)?`. -/
def numAt (signed : Bool) (cs : List Char) : Option NumLit :=
  if signed then
    match cs with
    | '-' :: r => numCore true r
    | '+' :: r => numCore false r
    | _ => numCore false cs
  else numCore false cs

/-- Match of `LABEL\s*NUMBER` at the head of the input (`\s*` is greedy,
and since a number never starts with whitespace no backtracking between
the two can occur). -/
def numAfterLabel (signed : Bool) (label : List Char) (cs : List Char) : Option NumLit :=
  match ciMatch label cs with
  | none => none
  | some rest => numAt signed (rest.dropWhile pyWs)

/-- `re.search` for `LABEL\s*(NUMBER)`: leftmost position where the whole
pattern matches. -/
def searchNum (signed : Bool) (label : List Char) : List Char → Option NumLit
  | [] => none
  | c :: rest =>
    match numAfterLabel signed label (c :: rest) with
    | some n => some n
    | none => searchNum signed label rest

/-- Terminator test of the lazy-body patterns
`(.+?)(?:TERM1|TERM2|...|$)` at a given suffix of the input: one of the
literal terminators matches here (case-insensitively, since the whole
pattern carries `re.IGNORECASE`), or this is the end of the string, or the
position just before a final newline (Python `$` without `re.MULTILINE`).
-/
def termAt (terms : List (List Char)) (rest : List Char) : Bool :=
  terms.any (fun t => (ciMatch t rest).isSome) || rest.isEmpty || rest == ['\n']

/-- Lazy group `(.+?)` before the terminator alternation: the shortest
non-empty prefix of the body after which a terminator matches (under
`re.DOTALL`, so newlines are included; a terminator position always
exists because `$` matches at the end). -/
def lazyBody (terms : List (List Char)) : List Char → List Char
  | [] => []
  | c :: rest => if termAt terms rest then [c] else c :: lazyBody terms rest

/-- Match of `LABEL\s*(.+?)(?:TERMS|$)` at the head of the input. The
greedy `\s*` takes the maximal whitespace run; if nothing follows it but
the input does continue, the engine backtracks one whitespace character
into the lazy group (so the group is the last whitespace character); if
nothing at all follows the label there is no match at this position. -/
def lazyAfterLabel (terms : List (List Char)) (label : List Char) (cs : List Char) :
    Option (List Char) :=
  match ciMatch label cs with
  | none => none
  | some [] => none
  | some (r :: rs) =>
    let body := (r :: rs).dropWhile pyWs
    if body.isEmpty then some [(r :: rs).getLast (List.cons_ne_nil r rs)]
    else some (lazyBody terms body)

/-- `re.search` for the lazy-body patterns: leftmost matching position. -/
def searchLazy (terms : List (List Char)) (label : List Char) : List Char → Option (List Char)
  | [] => none
  | c :: rest =>
    match lazyAfterLabel terms label (c :: rest) with
    | some g => some g
    | none => searchLazy terms label rest

/-- Python `str.strip` with an arbitrary character predicate. -/
def stripP (p : Char → Bool) (cs : List Char) : List Char :=
  ((cs.dropWhile p).reverse.dropWhile p).reverse

/-! ## Parsed numbers as Python floats -/

/-- Integer value of a digit run. -/
def digitsToNat (ds : List Char) : Nat :=
  ds.foldl (fun n c => 10 * n + (c.toNat - 48)) 0

/-- Exact rational value of a captured decimal literal (the value Python's
`float()` rounds to the nearest double). -/
def numVal (n : NumLit) : ℚ :=
  (if n.neg then -1 else 1) *
    ((digitsToNat n.ip : ℚ) + (digitsToNat n.fp : ℚ) / (10 : ℚ) ^ n.fp.length)

/-- Rational absolute value (kept as an explicit definition so it
evaluates in the kernel). -/
def ratAbs (q : ℚ) : ℚ := if q < 0 then -q else q

/-- Smallest decimal-literal magnitude at which CPython's
`float(literal)` overflows to infinity instead of producing a finite
double: round-to-nearest-even sends any magnitude of at least
(2^54 - 1) * 2^970 (the midpoint between the largest double
(2^53 - 1) * 2^971 and 2^1024) to infinity, and `float()` of a string
returns an infinity on overflow rather than raising. -/
def dblOverflow : ℚ := (((2 ^ 54 - 1) * 2 ^ 970 : Nat) : ℚ)

/-- Python float produced from a captured decimal literal: the exact
rational when it is below the overflow threshold (sub-ULP rounding of the
finite double is abstracted away — finiteness, sign, and every literal
with an exactly representable value are faithful), otherwise a signed
infinity. -/
inductive PyFloat where
  | finite (q : ℚ)
  | inf
  | ninf
deriving DecidableEq

/-- Truth value of "this float is finite". -/
def PyFloat.finiteB : PyFloat → Bool
  | .finite _ => true
  | _ => false

/-- Value of `float(group(1))` on a captured decimal literal. -/
def pyFloatOfNum (n : NumLit) : PyFloat :=
  if ratAbs (numVal n) < dblOverflow then .finite (numVal n)
  else if n.neg then .ninf else .inf

/-! ## Key-phrase extraction (score_political_ideology, step 4) -/

/-- `re.findall` of the pattern matching a double-quoted run
(an opening quote, one or more non-quote characters, a closing quote):
stateful left-to-right scan; an opening quote immediately followed by
another quote fails there and the scan re-opens at the second quote. -/
def findQuotedAux : Option (List Char) → List Char → List String
  | _, [] => []
  | none, c :: rest =>
    if c == '"' then findQuotedAux (some []) rest else findQuotedAux none rest
  | some buf, c :: rest =>
    if c == '"' then
      if buf.isEmpty then findQuotedAux (some []) rest
      else buf.reverse.asString :: findQuotedAux none rest
    else findQuotedAux (some (c :: buf)) rest

/-- All double-quoted substrings of the response, in order. -/
def findQuoted (cs : List Char) : List String :=
  findQuotedAux none cs

/-- The second, degenerate fallback pattern of the source (a character
class holding only a backslash and a caret, repeated): `re.findall` of it
returns the maximal runs of backslash/caret characters. -/
def bcChar (c : Char) : Bool := c == '\\' || c == '^'

/-- Accumulator scan collecting the maximal backslash/caret runs. -/
def bcRunsAux (acc : List Char) : List Char → List String
  | [] => if acc.isEmpty then [] else [acc.reverse.asString]
  | c :: rest =>
    if bcChar c then bcRunsAux (c :: acc) rest
    else if acc.isEmpty then bcRunsAux [] rest
    else acc.reverse.asString :: bcRunsAux [] rest

/-- All matches of the degenerate backslash/caret fallback pattern. -/
def bcRuns (cs : List Char) : List String :=
  bcRunsAux [] cs

/-- Delimiter class of the `re.split` applied to the "KEY PHRASES:" line
(comma, newline, bullet, star, dash). -/
def kpDelim (c : Char) : Bool :=
  c == ',' || c == '\n' || c == '•' || c == '*' || c == '-'

/-- `re.split` on single-character delimiters, keeping empty parts. -/
def splitDelim : List Char → List (List Char)
  | [] => [[]]
  | c :: rest =>
    if kpDelim c then [] :: splitDelim rest
    else
      match splitDelim rest with
      | [] => [[c]]
      | p :: ps => (c :: p) :: ps

/-- Characters stripped from each phrase piece
(`p.strip(' "\'-•*')`). -/
def kpStripChars : List Char := (" \"'-•*").data

/-- Third fallback of the key-phrase extraction: locate the
"KEY PHRASES:" labeled line, split its body on the delimiter class, keep
the pieces that are non-empty after a whitespace strip, and strip the
quote/bullet characters from each kept piece. -/
def keyPhrasesFromSection (cs : List Char) : List String :=
  match searchLazy [('\n' :: ['\n'])] ("KEY PHRASES:".data) cs with
  | none => []
  | some g =>
    ((splitDelim g).filter (fun p => !(stripP pyWs p).isEmpty)).map
      (fun p => (stripP (fun c => kpStripChars.contains c) p).asString)

/-- Layered key-phrase extraction of `score_political_ideology`:
double-quoted substrings, else the degenerate backslash/caret fallback,
else the labeled-line parse, else the fixed one-element sentinel list. -/
def keyPhrases (cs : List Char) : List String :=
  let k1 := findQuoted cs
  let k2 := if k1.isEmpty then bcRuns cs else k1
  let k3 := if k2.isEmpty then keyPhrasesFromSection cs else k2
  if k3.isEmpty then ["No key phrases identified"] else k3

/-! ## score_political_ideology (src/ai_analyzer.py) -/

/-- Result record of the ideology scorer (the `IdeologyAnalysis`
dataclass). -/
structure IdeologyAnalysis where
  score : PyFloat
  reasoning : String
  confidence : PyFloat
  key_phrases : List String
deriving DecidableEq

/-- The three layered score searches of the source (the second is the
first with different letter case, which `re.IGNORECASE` makes
indistinguishable; all three are kept as written). -/
def scoreNum (cs : List Char) : Option NumLit :=
  searchNum true ("OVERALL SCORE:".data) cs <|>
    searchNum true ("Overall score:".data) cs <|>
      searchNum true ("Score:".data) cs

/-- The two layered reasoning searches of the source, with the
terminator alternation `(?:\n\n|\nCONFIDENCE|\nKEY PHRASES|$)`. -/
def reasoningGroup (cs : List Char) : Option (List Char) :=
  searchLazy [('\n' :: ['\n']), ("\nCONFIDENCE".data), ("\nKEY PHRASES".data)]
      ("DETAILED REASONING:".data) cs <|>
    searchLazy [('\n' :: ['\n']), ("\nCONFIDENCE".data), ("\nKEY PHRASES".data)]
      ("Detailed reasoning:".data) cs

/-- The three layered confidence searches of the source (unsigned number
pattern). -/
def confNum (cs : List Char) : Option NumLit :=
  searchNum false ("CONFIDENCE LEVEL:".data) cs <|>
    searchNum false ("Confidence level:".data) cs <|>
      searchNum false ("Confidence:".data) cs

/-- Parsing layer of `score_political_ideology` applied to the model
response text. Every operation inside the Python `try` block is total in
this model (the regex searches cannot raise, and `float()` of a captured
decimal literal returns an infinity on overflow instead of raising), so
the `except` branch that would substitute the error sentinels is
unreachable and parsing always returns normally. -/
def parseIdeologyResponse (content : String) : IdeologyAnalysis :=
  let cs := content.data
  let score := match scoreNum cs with
    | none => PyFloat.finite 0
    | some n => pyFloatOfNum n
  let reasoning := match reasoningGroup cs with
    | none => "No detailed reasoning provided."
    | some g => (stripP pyWs g).asString
  let confidence := match confNum cs with
    | none => PyFloat.finite 50
    | some n => pyFloatOfNum n
  ⟨score, reasoning, confidence, keyPhrases cs⟩

/-- The 30,000-character truncation applied to the bill text before the
prompt is built. -/
def truncate30k (bill_text : String) : String :=
  if bill_text.length > 30000 then
    bill_text.take 30000 ++ "\n\n[Bill text truncated due to length...]\n\n"
  else bill_text

/-- The structured-output prompt of `score_political_ideology`, transcribed
from the method's f-string (the `metadata` parameter of the method is not
interpolated into it). -/
def ideologyPrompt (bill_text : String) : String :=
  "\n        You are a political science expert analyzing congressional bills " ++
  "for ideological orientation. Analyze this bill and assign a political ideol" ++
  "ogy score from -10 to +10 based on the detailed criteria below.\n\n        " ++
  "SCORING FRAMEWORK:\n\n        LIBERAL INDICATORS (-10 to -1):\n        - Ec" ++
  "onomic Policy: New government spending programs, tax increases on wealthy/c" ++
  "orporations, wealth redistribution, universal programs, economic stimulus, " ++
  "job guarantee programs\n        - Government Role: Federal agency creation/" ++
  "expansion, new federal oversight, centralized control, national standards, " ++
  "federal mandates on states\n        - Social Policy: Civil rights expansion" ++
  "s, LGBTQ+ protections, reproductive rights, criminal justice reform, immigr" ++
  "ation pathways, diversity/equity initiatives\n        - Regulation: Environ" ++
  "mental protections, financial regulations, consumer safety rules, labor pro" ++
  "tections, corporate accountability measures\n        - Fiscal: Deficit spen" ++
  "ding for social programs, progressive taxation, social safety net expansion" ++
  "\n\n        CONSERVATIVE INDICATORS (+1 to +10):\n        - Economic Policy" ++
  ": Tax cuts (especially business/high earners), spending reductions, privati" ++
  "zation, free market solutions, deregulation, elimination of programs\n     " ++
  "   - Government Role: State/local control, federal agency reduction, privat" ++
  "e sector solutions, reduced federal oversight, block grants to states\n    " ++
  "    - Social Policy: Traditional family values, religious freedom protectio" ++
  "ns, law enforcement support, border security, parental rights, merit-based " ++
  "policies\n        - Regulation: Regulatory rollbacks, reduced compliance bu" ++
  "rdens, industry-friendly policies, property rights protections\n        - F" ++
  "iscal: Balanced budgets, debt reduction, spending caps, elimination of agen" ++
  "cies/programs\n\n        MODERATE/BIPARTISAN INDICATORS (0):\n        - Bip" ++
  "artisan cosponsorship, incremental reforms, maintains status quo, technical" ++
  "/administrative changes, widely supported issues (infrastructure, veterans)" ++
  ", procedural bills\n\n        SCORING SCALE:\n        -10 to -8: Revolution" ++
  "ary progressive change (major wealth redistribution, massive government exp" ++
  "ansion)\n        -7 to -5: Strongly liberal (significant new programs, majo" ++
  "r government role expansion)\n        -4 to -2: Moderately liberal (modest " ++
  "spending increases, some new regulations)\n        -1 to +1: Moderate/Bipar" ++
  "tisan (minor changes, broad consensus issues)\n        +2 to +4: Moderately" ++
  " conservative (modest deregulation, limited spending cuts)\n        +5 to +" ++
  "7: Strongly conservative (major deregulation, significant spending cuts, tr" ++
  "aditional values emphasis)\n        +8 to +10: Revolutionary conservative c" ++
  "hange (major government reduction, dramatic deregulation)\n\n        ANALYS" ++
  "IS INSTRUCTIONS:\n        1. Identify the bill's PRIMARY purpose and main p" ++
  "rovisions\n        2. Categorize each major provision using the indicators " ++
  "above\n        3. Weight provisions by their significance and scope\n      " ++
  "  4. Consider the overall direction and magnitude of change proposed\n     " ++
  "   5. Assign a score that reflects the NET ideological direction\n        6" ++
  ". Be specific about which provisions drove your scoring decision\n\n       " ++
  " Bill Text: " ++
  bill_text ++
  "\n\n        REQUIRED RESPONSE FORMAT:\n        OVERALL SCORE: [single numbe" ++
  "r from -10 to +10, can include decimals like -3.5]\n        DETAILED REASON" ++
  "ING: [150-200 words explaining your scoring rationale, citing specific bill" ++
  " provisions]\n        CONFIDENCE LEVEL: [0-100, where 100 = completely cert" ++
  "ain]\n        KEY PHRASES: [\"phrase 1\", \"phrase 2\", \"phrase 3\"] [exac" ++
  "t quotes from bill text that most influenced your score]\n        IDEOLOGIC" ++
  "AL CATEGORY: [Ultra-Liberal/Liberal/Moderate-Liberal/Moderate/Moderate-Cons" ++
  "ervative/Conservative/Ultra-Conservative]\n        "

/-- Embedding of `AIAnalyzer.score_political_ideology`: truncate the bill
text, submit the structured prompt to the language model (the oracle
`llm`), parse the response. -/
def score_political_ideology (llm : String → String) (bill_text : String)
    (metadata : List (String × PyVal)) : IdeologyAnalysis :=
  parseIdeologyResponse (llm (ideologyPrompt (truncate30k bill_text)))

/-! ## Lemmas about the parsed numbers -/

theorem numCore_neg_eq (b : Bool) (r : List Char) (n : NumLit)
    (h : numCore b r = some n) : n.neg = b := by
  unfold numCore at h
  dsimp only at h
  split at h
  · exact absurd h (by simp)
  · split at h
    · split at h
      · injection h with h
        rw [← h]
      · injection h with h
        rw [← h]
    · injection h with h
      rw [← h]

theorem numAt_false_neg (cs : List Char) (n : NumLit) (h : numAt false cs = some n) :
    n.neg = false := by
  unfold numAt at h
  simp only [Bool.false_eq_true, if_false] at h
  exact numCore_neg_eq false cs n h

theorem numAfterLabel_false_neg (label cs : List Char) (n : NumLit)
    (h : numAfterLabel false label cs = some n) : n.neg = false := by
  unfold numAfterLabel at h
  split at h
  · exact absurd h (by simp)
  · exact numAt_false_neg _ n h

theorem searchNum_false_neg (label : List Char) :
    ∀ (cs : List Char) (n : NumLit), searchNum false label cs = some n → n.neg = false := by
  intro cs
  induction cs with
  | nil =>
    intro n h
    exact absurd h (by simp [searchNum])
  | cons c rest ih =>
    intro n h
    unfold searchNum at h
    split at h
    · rename_i n2 hn2
      injection h with h
      rw [← h]
      exact numAfterLabel_false_neg _ _ _ hn2
    · exact ih n h

theorem confNum_false_neg (cs : List Char) (n : NumLit) (h : confNum cs = some n) :
    n.neg = false := by
  unfold confNum at h
  rcases h1 : searchNum false ("CONFIDENCE LEVEL:".data) cs with _ | n1
  · rw [h1] at h
    simp only [Option.none_orElse] at h
    rcases h2 : searchNum false ("Confidence level:".data) cs with _ | n2
    · rw [h2] at h
      simp only [Option.none_orElse] at h
      exact searchNum_false_neg _ cs n h
    · rw [h2] at h
      simp only [Option.some_orElse] at h
      injection h with h
      rw [← h]
      exact searchNum_false_neg _ cs n2 h2
  · rw [h1] at h
    simp only [Option.some_orElse] at h
    injection h with h
    rw [← h]
    exact searchNum_false_neg _ cs n1 h1

theorem numVal_nonneg (n : NumLit) (h : n.neg = false) : 0 ≤ numVal n := by
  unfold numVal
  rw [h]
  simp only [Bool.false_eq_true, if_false, one_mul]
  positivity

theorem ite_sentinel_ne_nil (l : List String) :
    (if l.isEmpty then ["No key phrases identified"] else l) ≠ [] := by
  split
  · simp
  · rename_i hl
    intro he
    rw [he] at hl
    simp at hl

theorem keyPhrases_ne_nil (cs : List Char) : keyPhrases cs ≠ [] :=
  ite_sentinel_ne_nil _

/-! ## Claim C4: defaults when no label parses -/

/-- C4: when the model response carries none of the expected labels (no
score label in any of the three layered patterns, no reasoning label, no
confidence label, no double-quoted phrase and no labeled key-phrase line),
`score_political_ideology` returns the tertiary defaults: score 0.0,
confidence 50.0 and the fixed "No detailed reasoning provided." message.
In this embedding the parsing layer is a total function — every operation
of the Python `try` block returns normally on every string (`float()` of a
matched literal overflows to an infinity rather than raising), so parsing
never propagates an exception to the caller. -/
theorem ideology_defaults_when_unparseable (llm : String → String) (bill_text : String)
    (metadata : List (String × PyVal))
    (h1 : scoreNum (llm (ideologyPrompt (truncate30k bill_text))).data = none)
    (h2 : reasoningGroup (llm (ideologyPrompt (truncate30k bill_text))).data = none)
    (h3 : confNum (llm (ideologyPrompt (truncate30k bill_text))).data = none)
    (h4 : findQuoted (llm (ideologyPrompt (truncate30k bill_text))).data = [])
    (h5 : keyPhrasesFromSection (llm (ideologyPrompt (truncate30k bill_text))).data = []) :
    (score_political_ideology llm bill_text metadata).score = PyFloat.finite 0 ∧
    (score_political_ideology llm bill_text metadata).confidence = PyFloat.finite 50 ∧
    (score_political_ideology llm bill_text metadata).reasoning
      = "No detailed reasoning provided." := by
  unfold score_political_ideology parseIdeologyResponse
  dsimp only
  rw [h1, h2, h3]
  exact ⟨rfl, rfl, rfl⟩

/-- Witness for C4 at the label-free response "The bill is moderate.". -/
theorem ideology_defaults_when_unparseable_witness :
    scoreNum ("The bill is moderate.".data) = none ∧
    reasoningGroup ("The bill is moderate.".data) = none ∧
    confNum ("The bill is moderate.".data) = none ∧
    (score_political_ideology (fun _ => "The bill is moderate.") "b" []).score
      = PyFloat.finite 0 ∧
    (score_political_ideology (fun _ => "The bill is moderate.") "b" []).confidence
      = PyFloat.finite 50 ∧
    (score_political_ideology (fun _ => "The bill is moderate.") "b" []).reasoning
      = "No detailed reasoning provided." := by
  have h := ideology_defaults_when_unparseable (fun _ => "The bill is moderate.") "b" []
    rfl rfl rfl rfl rfl
  exact ⟨rfl, rfl, rfl, h.1, h.2.1, h.2.2⟩

/-! ## Claim C5: the shape of every returned analysis -/

unseal Rat.mul Rat.add Rat.sub Rat.inv in
/-- C5 counterexample: a model response whose score literal has 309
digits. Python's `float()` turns it into `inf`, so the returned score is
an infinite float — the "score is always a finite float" postcondition
fails on this input (while the key-phrase list is still non-empty). -/
theorem ideology_score_can_be_infinite :
    (score_political_ideology
        (fun _ => "OVERALL SCORE: " ++ (List.replicate 309 '9').asString) "bill" []).score
      = PyFloat.inf ∧
    PyFloat.inf.finiteB = false := by
  constructor
  · decide
  · rfl

/-- C5 (amended): on every model response, `score_political_ideology`
returns a well-defined result whose key-phrase list is never empty (at
minimum the one-element sentinel), and whose score and confidence are
finite floats unless the corresponding matched decimal literal reaches
the IEEE-double overflow threshold, in which case that field is an
infinity. -/
theorem ideology_postconditions (llm : String → String) (bill_text : String)
    (metadata : List (String × PyVal)) :
    (score_political_ideology llm bill_text metadata).key_phrases ≠ [] ∧
    ((score_political_ideology llm bill_text metadata).score.finiteB = true ∨
      ∃ n, scoreNum (llm (ideologyPrompt (truncate30k bill_text))).data = some n ∧
        dblOverflow ≤ ratAbs (numVal n)) ∧
    ((score_political_ideology llm bill_text metadata).confidence.finiteB = true ∨
      ∃ n, confNum (llm (ideologyPrompt (truncate30k bill_text))).data = some n ∧
        dblOverflow ≤ ratAbs (numVal n)) := by
  unfold score_political_ideology parseIdeologyResponse
  dsimp only
  refine ⟨keyPhrases_ne_nil _, ?_, ?_⟩
  · rcases h : scoreNum (llm (ideologyPrompt (truncate30k bill_text))).data with _ | n
    · left
      simp [h, PyFloat.finiteB]
    · by_cases hlt : ratAbs (numVal n) < dblOverflow
      · left
        simp [h, pyFloatOfNum, hlt, PyFloat.finiteB]
      · right
        exact ⟨n, rfl, le_of_not_lt hlt⟩
  · rcases h : confNum (llm (ideologyPrompt (truncate30k bill_text))).data with _ | n
    · left
      simp [h, PyFloat.finiteB]
    · by_cases hlt : ratAbs (numVal n) < dblOverflow
      · left
        simp [h, pyFloatOfNum, hlt, PyFloat.finiteB]
      · right
        exact ⟨n, rfl, le_of_not_lt hlt⟩

/-! ## Claim C6: the confidence range -/

unseal Rat.mul Rat.add Rat.sub Rat.inv in
/-- C6 counterexample: the response "CONFIDENCE LEVEL: 150" parses to
confidence 150.0, which lies outside [0, 100] — no clamping happens
anywhere in `score_political_ideology`. -/
theorem confidence_not_clamped :
    (score_political_ideology (fun _ => "CONFIDENCE LEVEL: 150") "bill" []).confidence
      = PyFloat.finite 150 ∧
    ¬ ((150 : ℚ) ≤ 100) := by
  constructor
  · decide
  · norm_num

/-- C6 (amended): the confidence field is the default 50.0 exactly when no
confidence label parses; otherwise it is the float of the matched unsigned
literal — hence never negative — passed through without any upper
clamping. -/
theorem confidence_default_or_unclamped_nonneg (llm : String → String) (bill_text : String)
    (metadata : List (String × PyVal)) :
    (confNum (llm (ideologyPrompt (truncate30k bill_text))).data = none ∧
      (score_political_ideology llm bill_text metadata).confidence = PyFloat.finite 50) ∨
    (∃ n, confNum (llm (ideologyPrompt (truncate30k bill_text))).data = some n ∧
      n.neg = false ∧ 0 ≤ numVal n ∧
      (score_political_ideology llm bill_text metadata).confidence = pyFloatOfNum n) := by
  unfold score_political_ideology parseIdeologyResponse
  dsimp only
  rcases h : confNum (llm (ideologyPrompt (truncate30k bill_text))).data with _ | n
  · left
    exact ⟨rfl, by simp⟩
  · right
    have hneg := confNum_false_neg _ _ h
    exact ⟨n, rfl, hneg, numVal_nonneg n hneg, by simp⟩

/-! ## Section Extractor (src/text_processor.py, extract_sections) -/

/-- ASCII word-character test (regex class \\w over this character
model). -/
def pyWordChar (c : Char) : Bool :=
  ('a' ≤ c && c ≤ 'z') || ('A' ≤ c && c ≤ 'Z') || ('0' ≤ c && c ≤ '9') || c == '_'

/-- Match of the first marker alternative `Section\\s+\\d+\\.` at the head
of the input (case sensitive — the splitting regex of `extract_sections`
carries no flag): the literal "Section", at least one whitespace
character (greedy), at least one digit (greedy), a dot. Returns the
number of characters consumed. -/
def matchSectionHdr (cs : List Char) : Option Nat :=
  match litMatch ("Section".data) cs with
  | none => none
  | some r1 =>
    let w := r1.takeWhile pyWs
    if w.isEmpty then none
    else
      let r2 := r1.drop w.length
      let d := r2.takeWhile pyDigit
      if d.isEmpty then none
      else
        match r2.drop d.length with
        | '.' :: _ => some (7 + w.length + d.length + 1)
        | _ => none

/-- Match of the second marker alternative `\\(\\w\\)\\s+` at the head of
the input: a parenthesized single word character followed by at least one
whitespace character (greedy). Returns the number of characters
consumed. -/
def matchParenItem (cs : List Char) : Option Nat :=
  match cs with
  | '(' :: x :: ')' :: rest =>
    if pyWordChar x then
      let w := rest.takeWhile pyWs
      if w.isEmpty then none else some (3 + w.length)
    else none
  | _ => none

/-- Match of the full marker alternation at the head of the input, first
alternative first. -/
def markerAt (cs : List Char) : Option Nat :=
  matchSectionHdr cs <|> matchParenItem cs

/-- Fuel-indexed scan behind `re.split` with the capturing marker group:
`acc` holds the (reversed) text accumulated since the last separator;
when a marker matches, the pending text and the separator text are
emitted and the scan resumes after the separator. With
`fuel ≥ input length` the fuel never runs out. -/
def splitMarkerFuel : Nat → List Char → List Char → List (List Char)
  | _, acc, [] => [acc.reverse]
  | 0, acc, cs => [acc.reverse ++ cs]
  | fuel + 1, acc, c :: rest =>
    match markerAt (c :: rest) with
    | some n => acc.reverse :: ((c :: rest).take n) :: splitMarkerFuel fuel [] (rest.drop (n - 1))
    | none => splitMarkerFuel fuel (c :: acc) rest

/-- `re.split(r'(Section\\s+\\d+\\.|\\(\\w\\)\\s+)', text)`: the parts of
the text split at every marker occurrence, separators included (between
two consecutive separators, and before a leading or after a trailing
separator, an empty part appears). -/
def pySplitMarker (cs : List Char) : List (List Char) :=
  splitMarkerFuel cs.length [] cs

/-- A (header, content) section of `extract_sections`. -/
structure BillSection where
  header : String
  content : String
deriving DecidableEq

/-- The `re.match` test of the loop body: does a part start with a
marker? -/
def markerStartB (p : List Char) : Bool :=
  (markerAt p).isSome

/-- The accumulation loop of `extract_sections`: marker parts close the
current section (appended only when its content is non-empty after a
whitespace strip) and open a new one with the stripped marker as header;
other parts are appended to the current content; the final section is
appended under the same non-empty-content condition. -/
def sectionsLoop : List (List Char) → BillSection → List BillSection → List BillSection
  | [], cur, secs => if (stripP pyWs cur.content.data).isEmpty then secs else secs ++ [cur]
  | p :: ps, cur, secs =>
    if markerStartB p then
      sectionsLoop ps ⟨(stripP pyWs p).asString, ""⟩
        (if (stripP pyWs cur.content.data).isEmpty then secs else secs ++ [cur])
    else sectionsLoop ps ⟨cur.header, cur.content ++ p.asString⟩ secs

/-- Embedding of `TextProcessor.extract_sections`. -/
def extract_sections (text : String) : List BillSection :=
  sectionsLoop (pySplitMarker text.data) ⟨"", ""⟩ []

/-- Does any position of the input start a structural marker? -/
def containsMarker : List Char → Bool
  | [] => false
  | c :: rest => (markerAt (c :: rest)).isSome || containsMarker rest

theorem splitMarkerFuel_no_marker :
    ∀ (fuel : Nat) (acc cs : List Char), cs.length ≤ fuel → containsMarker cs = false →
      splitMarkerFuel fuel acc cs = [acc.reverse ++ cs] := by
  intro fuel
  induction fuel with
  | zero =>
    intro acc cs hlen hnm
    have : cs = [] := List.length_eq_zero.mp (Nat.le_zero.mp hlen)
    subst this
    simp [splitMarkerFuel]
  | succ n ih =>
    intro acc cs hlen hnm
    match cs with
    | [] => simp [splitMarkerFuel]
    | c :: rest =>
      simp only [containsMarker, Bool.or_eq_false_iff] at hnm
      have hmark : markerAt (c :: rest) = none := by
        rcases hm : markerAt (c :: rest) with _ | k
        · rfl
        · rw [hm] at hnm
          simp at hnm
      simp only [splitMarkerFuel, hmark]
      have := ih (c :: acc) rest (by simpa using Nat.lt_succ_iff.mp (Nat.lt_of_lt_of_le
        (Nat.lt_succ_of_le (Nat.le_refl _)) (by simpa using hlen))) hnm.2
      rw [this]
      simp

theorem text_data_asString (text : String) : text.data.asString = text := by
  cases text
  rfl

theorem empty_append_string (s : String) : "" ++ s = s := by
  cases s
  rfl

/-- C7: on input containing no structural marker (no "Section N." token
and no lettered sub-item token anywhere), `extract_sections` returns the
empty list when the input is the empty string, and a single section with
an empty header and the whole text as content when the input is non-empty
after a whitespace trim. -/
theorem extract_sections_no_marker (text : String)
    (h : containsMarker text.data = false) :
    (text = "" → extract_sections text = []) ∧
    ((stripP pyWs text.data).isEmpty = false → extract_sections text = [⟨"", text⟩]) := by
  have hparts : pySplitMarker text.data = [text.data] := by
    unfold pySplitMarker
    rw [splitMarkerFuel_no_marker text.data.length [] text.data le_rfl h]
    rfl
  have hstart : markerStartB text.data = false := by
    unfold markerStartB
    rcases hm : markerAt text.data with _ | k
    · rfl
    · rcases hd : text.data with _ | ⟨c, rest⟩
      · rw [hd] at hm
        exact nomatch hm
      · rw [hd] at hm h
        simp only [containsMarker, hm, Bool.or_eq_false_iff] at h
        simp at h
  constructor
  · intro he
    subst he
    rfl
  · intro hne
    unfold extract_sections
    rw [hparts]
    simp only [sectionsLoop, hstart, Bool.false_eq_true, if_false]
    have hcontent : ("" : String) ++ text.data.asString = text := by
      rw [text_data_asString, empty_append_string]
    rw [hcontent]
    simp only [sectionsLoop, hne, Bool.false_eq_true, if_false]
    rfl

/-- Witness for C7 at the marker-free inputs "hello world" and "". -/
theorem extract_sections_no_marker_witness :
    containsMarker ("hello world".data) = false ∧
    extract_sections "" = [] ∧
    extract_sections "hello world" = [⟨"", "hello world"⟩] := by
  have h1 := extract_sections_no_marker "" rfl
  have h2 := extract_sections_no_marker "hello world" rfl
  exact ⟨rfl, h1.1 rfl, h2.2 rfl⟩

/-! ## Ideology/Summary Scorer: section breakdown (src/ai_analyzer.py) -/

/-- One analyzed section of `generate_section_breakdown`. -/
structure SectionAnalysis where
  header : String
  analysis : String
deriving DecidableEq

/-- The per-section prompt of `generate_section_breakdown`, with the
12,000-character truncation of the section content. -/
def sectionPrompt (s : BillSection) : String :=
  let content := if s.content.length > 12000
    then s.content.take 12000 ++ "\n\n[Section content truncated due to length...]\n\n"
    else s.content
  "\n            Analyze this section of a congressional bill:\n            " ++
  "\n            Section Header: " ++ s.header ++
  "\n            Content: " ++ content ++
  "\n            \n            Provide:\n            1. Summary of key provisions" ++
  "\n            2. Policy implications\n            3. Stakeholder impact" ++
  "\n            4. Implementation considerations\n            "

/-- The synthetic trailing note appended when more than 10 sections
exist. -/
def breakdownNote (total : Nat) : SectionAnalysis :=
  ⟨"Note", "Analysis limited to first 10 of " ++ toString total ++
    " sections to avoid rate limits."⟩

/-- Embedding of `AIAnalyzer.generate_section_breakdown`: analyze the
first 10 sections (`sections[:10] if len(sections) > 10 else sections`)
through the language-model oracle, and append one trailing note when
sections were skipped. -/
def generate_section_breakdown (llm : String → String) (sections : List BillSection) :
    List SectionAnalysis :=
  let sections_to_analyze := if sections.length > 10 then sections.take 10 else sections
  let analysis := sections_to_analyze.map (fun s => ⟨s.header, llm (sectionPrompt s)⟩)
  if sections.length > 10 then analysis ++ [breakdownNote sections.length] else analysis

/-- Substring test used to state that the note mentions the counts. -/
def substrB (needle : List Char) : List Char → Bool
  | [] => needle.isEmpty
  | c :: rest => needle.isPrefixOf (c :: rest) || substrB needle rest

/-- C8: `generate_section_breakdown` analyzes at most the first 10
sections: with at most 10 sections every section is analyzed and nothing
is appended; with more than 10 sections exactly the first 10 are analyzed
(in order) and exactly one synthetic trailing entry is appended; in
particular with 15 sections the result is the 10 analyses followed by one
note whose text mentions "15" and "10". -/
theorem section_breakdown_caps_at_ten (llm : String → String) (sections : List BillSection) :
    (sections.length ≤ 10 →
      generate_section_breakdown llm sections
        = sections.map (fun s => ⟨s.header, llm (sectionPrompt s)⟩)) ∧
    (sections.length > 10 →
      generate_section_breakdown llm sections
        = (sections.take 10).map (fun s => ⟨s.header, llm (sectionPrompt s)⟩)
          ++ [breakdownNote sections.length] ∧
      (generate_section_breakdown llm sections).length = 11) ∧
    (sections.length = 15 →
      generate_section_breakdown llm sections
        = (sections.take 10).map (fun s => ⟨s.header, llm (sectionPrompt s)⟩)
          ++ [breakdownNote 15] ∧
      substrB ("15".data) ((breakdownNote 15).analysis.data) = true ∧
      substrB ("10".data) ((breakdownNote 15).analysis.data) = true) := by
  refine ⟨?_, ?_, ?_⟩
  · intro hle
    have hnot : ¬ sections.length > 10 := by omega
    unfold generate_section_breakdown
    dsimp only
    simp only [if_neg hnot]
  · intro hgt
    unfold generate_section_breakdown
    dsimp only
    constructor
    · simp only [if_pos hgt]
    · simp only [if_pos hgt, List.length_append, List.length_map, List.length_take,
        List.length_singleton]
      omega
  · intro h15
    refine ⟨?_, by decide, by decide⟩
    unfold generate_section_breakdown
    dsimp only
    simp only [h15]
    norm_num

/-- Witness for C8 at 15 replicated sections (and a 3-section list for
the no-truncation case), with a constant language-model oracle. -/
theorem section_breakdown_caps_at_ten_witness :
    (List.replicate 15 (⟨"H", "c"⟩ : BillSection)).length = 15 ∧
    (List.replicate 3 (⟨"H", "c"⟩ : BillSection)).length ≤ 10 ∧
    (generate_section_breakdown (fun _ => "A") (List.replicate 15 ⟨"H", "c"⟩)).length = 11 ∧
    generate_section_breakdown (fun _ => "A") (List.replicate 3 ⟨"H", "c"⟩)
      = List.replicate 3 ⟨"H", "A"⟩ := by
  have h15 := (section_breakdown_caps_at_ten (fun _ => "A")
    (List.replicate 15 ⟨"H", "c"⟩)).2.1 (by decide)
  have h3 := (section_breakdown_caps_at_ten (fun _ => "A")
    (List.replicate 3 ⟨"H", "c"⟩)).1 (by decide)
  refine ⟨by decide, by decide, h15.2, ?_⟩
  rw [h3]
  rfl

/-! ## Context Composer (src/qa_system.py, generate_contextualized_response) -/

/-- The `if len(context) > 5: context = context[:5]` truncation at the
head of `generate_contextualized_response`. -/
def contextLimited (context : List CtxItem) : List CtxItem :=
  if context.length > 5 then context.take 5 else context

/-- Model of Python's `str` on the raw distance float of a retrieved item
(the exact digit rendering of the external distance value is immaterial
to every claim). -/
def distRepr (q : ℚ) : String :=
  toString q

/-- One rendered context block
(`f"Section: ...\nContent: ...\nRelevance Score: ..."`). -/
def renderCtxItem (c : CtxItem) : String :=
  "Section: " ++ pyStr c.sectionLabel ++ "\nContent: " ++ c.text ++
    "\nRelevance Score: " ++ distRepr c.relevance_score

/-- The four bill-metadata fields interpolated into the grounding prompt
(the dict built by `query_bill`, whose `.get` defaults guarantee every
field is present). -/
structure PromptMeta where
  title : String
  congress : String
  sponsor : String
  bill_type : String

/-- The grounding prompt of `generate_contextualized_response`. -/
def qaPrompt (question context_str : String) (metadata : PromptMeta) : String :=
  "\n        You are an expert congressional bill analyst. Answer the user's questi" ++
  "on about the bill using the provided context.\n\n        Bill Information:" ++
  "\n        - Title: " ++ metadata.title ++
  "\n        - Congress: " ++ metadata.congress ++
  "\n        - Sponsor: " ++ metadata.sponsor ++
  "\n        - Type: " ++ metadata.bill_type ++
  "\n\n        Relevant Bill Sections:\n        " ++ context_str ++
  "\n\n        User Question: " ++ question ++
  "\n\n        Instructions:\n        1. Answer based primarily on the provided b" ++
  "ill text\n        2. If information is not in the bill, clearly state this" ++
  "\n        3. Reference specific sections when possible\n        4. Explain imp" ++
  "lications and potential impacts\n        5. Use clear, accessible language" ++
  "\n        6. If the question involves comparison to current law, note that as " ++
  "context\n\n        Answer:\n        "

/-- Embedding of `QASystem.generate_contextualized_response`: truncate
the retrieved context to 5 items, render the blocks, compose the
grounding prompt, submit it to the language model (oracle `llm`). -/
def generate_contextualized_response (llm : String → String) (question : String)
    (context : List CtxItem) (metadata : PromptMeta) : String :=
  let context := contextLimited context
  let context_str := String.intercalate "\n\n" (context.map renderCtxItem)
  llm (qaPrompt question context_str metadata)

/-- C9: the context used by `generate_contextualized_response` is always
the first (at most) 5 retrieved items in ranked order: the truncation
equals `take 5`, its result never exceeds 5 items, and the composed
response on any context equals the response on its first 5 items —
regardless of the `k` requested upstream. -/
theorem context_capped_at_five (context : List CtxItem) :
    contextLimited context = context.take 5 ∧
    (contextLimited context).length ≤ 5 ∧
    (∀ (llm : String → String) (question : String) (metadata : PromptMeta),
      generate_contextualized_response llm question context metadata
        = generate_contextualized_response llm question (context.take 5) metadata) := by
  have h1 : contextLimited context = context.take 5 := by
    unfold contextLimited
    split
    · rfl
    · rename_i hle
      push_neg at hle
      exact (List.take_of_length_le hle).symm
  have h2 : contextLimited (context.take 5) = context.take 5 := by
    unfold contextLimited
    split
    · rename_i hgt
      simp only [List.length_take] at hgt
      omega
    · rfl
  refine ⟨h1, ?_, ?_⟩
  · rw [h1]
    simp only [List.length_take]
    omega
  · intro llm question metadata
    unfold generate_contextualized_response
    rw [h1, h2]

end BillAnalyzer
